import Mathlib

/-
Verification of the checkpointed vector-ingestion pipeline
(src/vector_ingest.py) against its specification.

The script is embedded shallowly: pure Lean functions mirror the Python
control flow.  External effects are represented by explicit data:
 * the result of each attempted sink (Pinecone) upsert call is given by
   an environment function `outcome : Nat -> SinkOutcome` (attempt number
   to success / retryable error / non-retryable error, following the
   classification at line 66 of the source);
 * appends to the checkpoint file and sleeps are collected into lists so
   theorems can speak about what was written and how long was slept;
 * pandas cells are modelled by the `PyValue` type, including the
   missing-value (NaN) scalar.
-/

namespace VectorIngest

/-- Outcome of one attempted sink upsert call, as classified by the
except-branch of upsert_with_retry (source line 66): the call either
succeeds, raises an error whose lowercased text contains one of the
retryable substrings (ssl / connection / timeout / serviceunavailable /
bad_write_retry / broken pipe / server error), or raises any other
error (for example an authentication error). -/
inductive SinkOutcome
  | success
  | retryable
  | nonRetryable
deriving DecidableEq, Repr

/-- One entry of vectors_to_upsert_buffer (source lines 207-211): a record
id together with its embedding vector.  The metadata payload is modelled
separately by coerce_metadata_value below; the buffer logic never
inspects it. -/
structure UpsertItem where
  id : String
  values : List Int
deriving DecidableEq, Repr

/-- Observable result of one call to upsert_with_retry: the value the
function returns, the ids it appended to the checkpoint file (via
save_processed_ids), the number of sink upsert calls it made, and the
sleep durations it performed, in order. -/
structure RunLog where
  ret : Nat
  appended : List String
  attempts : Nat
  sleeps : List Nat
deriving DecidableEq, Repr

/-- The delay computed at source line 71:
min(current_delay * 2 ** retries, 60).  current_delay is assigned
initial_delay at line 53 and never reassigned, so it always equals
initial_delay. -/
def actual_delay (initial_delay retries : Nat) : Nat :=
  min (initial_delay * 2 ^ retries) 60

/-- The while-loop of upsert_with_retry (source lines 54-80).  The loop is
driven by the counter retries; fuel bounds the number of iterations and
the callers pass max_retries, which suffices because retries grows by one
per iteration and every path with retries at least max_retries - 1
returns.  The fuel-zero result is the trailing return 0 of line 80, and
the else branch of the retries < max_retries test is the normal loop
exit, which also reaches line 80. -/
def upsert_with_retry_loop (outcome : Nat → SinkOutcome) (batch : List UpsertItem)
    (max_retries initial_delay retries fuel attempts : Nat)
    (sleeps : List Nat) : RunLog :=
  match fuel with
  | 0 => ⟨0, [], attempts, sleeps⟩
  | fuel + 1 =>
    if retries < max_retries then
      match outcome retries with
      | .success =>
        ⟨batch.length, batch.map (fun v => v.id), attempts + 1, sleeps⟩
      | .retryable =>
        if retries < max_retries - 1 then
          upsert_with_retry_loop outcome batch max_retries initial_delay
            (retries + 1) fuel (attempts + 1)
            (sleeps ++ [actual_delay initial_delay (retries + 1)])
        else ⟨0, [], attempts + 1, sleeps⟩
      | .nonRetryable => ⟨0, [], attempts + 1, sleeps⟩
    else ⟨0, [], attempts, sleeps⟩

/-- upsert_with_retry (source lines 48-80): returns 0 immediately on an
empty batch (line 49), otherwise runs the retry loop starting at
retries = 0.  On a successful attempt the ids of the whole batch are
extracted (line 59) and appended to the checkpoint file (line 60) and the
batch length is returned (line 62); on abandonment nothing is appended
and 0 is returned. -/
def upsert_with_retry (outcome : Nat → SinkOutcome) (vectors_batch : List UpsertItem)
    (max_retries : Nat := 3) (initial_delay : Nat := 5) : RunLog :=
  if vectors_batch.isEmpty then ⟨0, [], 0, []⟩
  else
    upsert_with_retry_loop outcome vectors_batch max_retries initial_delay
      0 max_retries 0 []

/-- Every terminating path of the retry loop either reports full success
(batch length returned, exactly the batch ids appended, with a successful
sink attempt at some retries value at least the starting one) or reports
abandonment (0 returned, nothing appended). -/
theorem upsert_loop_all_or_nothing (o : Nat → SinkOutcome) (b : List UpsertItem)
    (m d : Nat) :
    ∀ fuel retries attempts sleeps,
      ((upsert_with_retry_loop o b m d retries fuel attempts sleeps).ret = b.length
        ∧ (upsert_with_retry_loop o b m d retries fuel attempts sleeps).appended
            = b.map (fun v => v.id)
        ∧ ∃ a, retries ≤ a ∧ a < m ∧ o a = SinkOutcome.success)
      ∨ ((upsert_with_retry_loop o b m d retries fuel attempts sleeps).ret = 0
        ∧ (upsert_with_retry_loop o b m d retries fuel attempts sleeps).appended = []) := by
  intro fuel
  induction fuel with
  | zero =>
    intro retries attempts sleeps
    right
    exact ⟨rfl, rfl⟩
  | succ fuel ih =>
    intro retries attempts sleeps
    by_cases h : retries < m
    · rcases ho : o retries with _ | _ | _
      · left
        refine ⟨?_, ?_, retries, le_refl _, h, ho⟩ <;>
          simp [upsert_with_retry_loop, h, ho]
      · by_cases h2 : retries < m - 1
        · have h3 : upsert_with_retry_loop o b m d retries (fuel + 1) attempts sleeps
              = upsert_with_retry_loop o b m d (retries + 1) fuel (attempts + 1)
                  (sleeps ++ [actual_delay d (retries + 1)]) := by
            simp [upsert_with_retry_loop, h, ho, h2]
          rw [h3]
          rcases ih (retries + 1) (attempts + 1)
              (sleeps ++ [actual_delay d (retries + 1)]) with h4 | h4
          · left
            obtain ⟨ha, hb, a, hle, hlt, hs⟩ := h4
            exact ⟨ha, hb, a, by omega, hlt, hs⟩
          · right; exact h4
        · right
          constructor <;> simp [upsert_with_retry_loop, h, ho, h2]
      · right
        constructor <;> simp [upsert_with_retry_loop, h, ho]
    · right
      constructor <;> simp [upsert_with_retry_loop, h]

/-- The sink behaviour of Scenario C: the upsert call raises a timeout
(retryable) on the first two attempts and succeeds on the third. -/
def two_timeouts_then_success : Nat → SinkOutcome :=
  fun a => if a < 2 then SinkOutcome.retryable else SinkOutcome.success

/-- A Python value held in a pandas cell, as discriminated by the
isinstance chain of source lines 185-205.  Missing scalars (NaN / None,
the values for which pd.isna is True) are the na constructor; a
non-missing float is carried by its printed form, which is all the script
ever does with it; other covers every remaining object type, carried by
its str() form. -/
inductive PyValue
  | na
  | bool (b : Bool)
  | int (n : Int)
  | float (r : String)
  | str (s : String)
  | list (xs : List PyValue)
  | other (s : String)

mutual

/-- Python str() on a cell value.  str of a NaN float prints as nan,
booleans print capitalised, and a list prints its elements joined inside
square brackets (the str-versus-repr distinction for values nested inside
a list is not observable in any claim and is flattened here). -/
def pyStr : PyValue → String
  | .na => "nan"
  | .bool b => if b then "True" else "False"
  | .int n => toString n
  | .float r => r
  | .str s => s
  | .list xs => "[" ++ String.intercalate ", " (pyStrList xs) ++ "]"
  | .other s => s

/-- str() applied to each element of a list, as in source line 203. -/
def pyStrList : List PyValue → List String
  | [] => []
  | x :: xs => pyStr x :: pyStrList xs

end

/-- The declared dtype of a DataFrame column, as inspected at source lines
186-188: a numeric dtype (np.issubdtype(dtype, np.number)), a boolean
dtype (np.issubdtype(dtype, np.bool_)), or anything else (object). -/
inductive PandasDtype
  | numeric
  | boolean
  | object
deriving DecidableEq, Repr

/-- A value placed into the metadata payload (source lines 181-205). -/
inductive MetaValue
  | mBool (b : Bool)
  | mInt (n : Int)
  | mFloat (r : String)
  | mStr (s : String)
  | mStrList (xs : List String)
deriving DecidableEq, Repr

/-- pd.isna on a scalar cell value: True exactly for the missing scalar. -/
def isna_scalar : PyValue → Bool
  | .na => true
  | _ => false

/-- The test at source line 185, if pd.isna(value).  On a scalar
pd.isna returns a Python bool.  On a list pd.isna returns a numpy boolean
array, and using an array as an if-condition raises ValueError unless the
array has exactly one element, in which case its single element is
used. -/
def isna_test : PyValue → Except String Bool
  | .list [x] => .ok (isna_scalar x)
  | .list _ =>
    .error "ValueError: The truth value of an array with more than one element is ambiguous"
  | v => .ok (isna_scalar v)

/-- The per-attribute metadata coercion of source lines 182-205: missing
values default by the declared column dtype (0 for numeric, False for
boolean, empty string otherwise); bool, int, float and str values pass
through; a list becomes the list of its elements stringified; anything
else is stringified.  The result is an Except because the leading
pd.isna test can raise on list values. -/
def coerce_metadata_value (column_dtype : PandasDtype) (value : PyValue) :
    Except String MetaValue :=
  match isna_test value with
  | .error e => .error e
  | .ok true =>
    match column_dtype with
    | .numeric => .ok (.mInt 0)
    | .boolean => .ok (.mBool false)
    | .object => .ok (.mStr "")
  | .ok false =>
    match value with
    | .na => .ok (.mStr "")
    | .bool b => .ok (.mBool b)
    | .int n => .ok (.mInt n)
    | .float r => .ok (.mFloat r)
    | .str s => .ok (.mStr s)
    | .list xs => .ok (.mStrList (pyStrList xs))
    | .other s => .ok (.mStr s)

/-- A raw row of the Excel file, restricted to the two columns the
loading code touches: post_id (ID_COLUMN) and post_text (EMBED_COLUMN). -/
structure RawRow where
  post_id : PyValue
  post_text : PyValue

/-- Source lines 107-108: first
df[ID_COLUMN] = df[ID_COLUMN].astype(str), which stringifies every id
cell (a missing id becomes the string nan), then
df.dropna(subset=[ID_COLUMN, EMBED_COLUMN]), which drops the rows whose
id or text cell is missing. -/
def load_and_clean (rows : List RawRow) : List RawRow :=
  (rows.map (fun r => { r with post_id := PyValue.str (pyStr r.post_id) })).filter
    (fun r => !(isna_scalar r.post_id) && !(isna_scalar r.post_text))

/-- A cleaned record: after lines 107-108 both relevant columns are
non-missing and the id is a string. -/
structure Record where
  post_id : String
  post_text : String
deriving DecidableEq, Repr

/-- Source line 115: df = df[~df[ID_COLUMN].isin(processed_ids_set)] —
keep exactly the rows whose id is not in the loaded checkpoint set. -/
def filter_unprocessed (df : List Record) (processed_ids_set : List String) :
    List Record :=
  df.filter (fun r => !(processed_ids_set.contains r.post_id))

/-- Source line 16. -/
def OPENAI_EMBEDDING_BATCH_SIZE : Nat := 100

/-- Source line 17. -/
def PINECONE_UPSERT_BATCH_SIZE : Nat := 100

/-- Source lines 146-158: for i in range(0, len(df), B) take the slice
df.iloc[i:i+B].  The range holds ceil(len(df)/B) slice starts 0, B, 2B,
and so on; each slice has length at most B, slices preserve input order
and the final slice may be shorter.  B = 0 never occurs (range with step
0 raises ValueError); the model yields no batches in that case. -/
def prepare_batches (df : List Record) (B : Nat) : List (List Record) :=
  if B = 0 then []
  else (List.range ((df.length + B - 1) / B)).map (fun i => (df.drop (i * B)).take B)

/-- Source lines 170-211, per completed embedding batch: pair each record
id with the embedding vector returned for its text, in order.  E models
the embedding provider (one vector per text, same order). -/
def chunk_to_items (E : String → List Int) (chunk : List Record) : List UpsertItem :=
  chunk.map (fun r => ⟨r.post_id, E r.post_text⟩)

/-- The orchestrator state threaded through the delivery loop: the rolling
buffer vectors_to_upsert_buffer, the list of batches passed to
upsert_with_retry so far (each sink call in order), the contents of the
checkpoint file appended during the run, and processed_count_in_run. -/
structure PipeState where
  vectors_to_upsert_buffer : List UpsertItem
  sink_calls : List (List UpsertItem)
  checkpoint : List String
  processed_count_in_run : Nat
deriving DecidableEq, Repr

/-- Source lines 161-162: empty buffer, zero counter at run start. -/
def init_state : PipeState := ⟨[], [], [], 0⟩

/-- Source lines 207-218: append one prepared vector to the rolling
buffer; when the buffer length reaches B (PINECONE_UPSERT_BATCH_SIZE),
call upsert_with_retry on the whole buffer, add the returned count to
processed_count_in_run when positive, and reset the buffer to [] whether
or not the call succeeded.  outcome gives, per sink call number, the
per-attempt sink behaviour. -/
def process_item (B : Nat) (outcome : Nat → Nat → SinkOutcome)
    (st : PipeState) (item : UpsertItem) : PipeState :=
  let buf := st.vectors_to_upsert_buffer ++ [item]
  if B ≤ buf.length then
    let log := upsert_with_retry (outcome st.sink_calls.length) buf
    { vectors_to_upsert_buffer := []
      sink_calls := st.sink_calls ++ [buf]
      checkpoint := st.checkpoint ++ log.appended
      processed_count_in_run :=
        st.processed_count_in_run + (if 0 < log.ret then log.ret else 0) }
  else
    { st with vectors_to_upsert_buffer := buf }

/-- Source lines 226-231 (the DRAIN stage): if the buffer still holds
vectors after all embedding batches completed, flush it as one final
batch and clear it. -/
def drain (outcome : Nat → Nat → SinkOutcome) (st : PipeState) : PipeState :=
  if st.vectors_to_upsert_buffer.isEmpty then st
  else
    let buf := st.vectors_to_upsert_buffer
    let log := upsert_with_retry (outcome st.sink_calls.length) buf
    { vectors_to_upsert_buffer := []
      sink_calls := st.sink_calls ++ [buf]
      checkpoint := st.checkpoint ++ log.appended
      processed_count_in_run :=
        st.processed_count_in_run + (if 0 < log.ret then log.ret else 0) }

/-- The delivery side of the run: fold every prepared vector through
process_item in arrival order, then drain. -/
def run_deliveries (B : Nat) (outcome : Nat → Nat → SinkOutcome)
    (items : List UpsertItem) : PipeState :=
  drain outcome (items.foldl (process_item B outcome) init_state)

/-- The whole EMBEDDING + DELIVERING + DRAIN flow of source lines 146-231
for a fixed per-call sink behaviour, with embedding batches consumed in
submission order. -/
def run_pipeline (E : String → List Int) (outcome : Nat → Nat → SinkOutcome)
    (df : List Record) : PipeState :=
  run_deliveries PINECONE_UPSERT_BATCH_SIZE outcome
    (((prepare_batches df OPENAI_EMBEDDING_BATCH_SIZE).map (chunk_to_items E)).flatten)

/-- Scenario A / B input: 250 records with distinct string ids. -/
def scenario_records : List Record :=
  (List.range 250).map (fun i => { post_id := toString i, post_text := toString i })

/-- Scenario B: the checkpoint log is pre-populated with the first 50 of
the 250 ids. -/
def scenarioB_checkpoint : List String :=
  (List.range 50).map toString

/-- A sink on which every upsert call succeeds at the first attempt. -/
def all_success : Nat → Nat → SinkOutcome := fun _ _ => SinkOutcome.success

/-- A degenerate embedding provider; the orchestrator never inspects the
vectors, so any fixed vector works for the scenarios. -/
def embed_const : String → List Int := fun _ => [0]

/-- Scenario A, state just before DRAIN: all 250 prepared vectors folded
through process_item. -/
def scenarioA_mid : PipeState :=
  (((prepare_batches scenario_records OPENAI_EMBEDDING_BATCH_SIZE).map
      (chunk_to_items embed_const)).flatten).foldl
    (process_item PINECONE_UPSERT_BATCH_SIZE all_success) init_state

/-- Scenario A, final state of the run. -/
def scenarioA_final : PipeState :=
  run_pipeline embed_const all_success scenario_records

/-- 100 prepared vectors with distinct ids, enough to fill the delivery
buffer exactly once. -/
def hundred_items : List UpsertItem :=
  (List.range 100).map (fun i => ⟨toString i, [0]⟩)

/-- A sink on which every attempt of every call fails retryably, so every
delivery batch is abandoned after max_retries attempts. -/
def all_retryable : Nat → Nat → SinkOutcome := fun _ _ => SinkOutcome.retryable

/-- Unfolding equation for one iteration of the retry loop. -/
theorem upsert_loop_succ (o : Nat → SinkOutcome) (b : List UpsertItem)
    (m d retries fuel attempts : Nat) (sleeps : List Nat) :
    upsert_with_retry_loop o b m d retries (fuel + 1) attempts sleeps
      = if retries < m then
          match o retries with
          | .success => ⟨b.length, b.map (fun v => v.id), attempts + 1, sleeps⟩
          | .retryable =>
            if retries < m - 1 then
              upsert_with_retry_loop o b m d (retries + 1) fuel (attempts + 1)
                (sleeps ++ [actual_delay d (retries + 1)])
            else ⟨0, [], attempts + 1, sleeps⟩
          | .nonRetryable => ⟨0, [], attempts + 1, sleeps⟩
        else ⟨0, [], attempts, sleeps⟩ := rfl

/-- If every sink attempt fails with a retryable error, the loop makes
exactly m - retries further attempts, returns 0 and appends nothing. -/
theorem upsert_loop_all_retryable (o : Nat → SinkOutcome) (b : List UpsertItem)
    (m d : Nat) (ho : ∀ a, o a = SinkOutcome.retryable) :
    ∀ fuel retries attempts sleeps, m - retries ≤ fuel →
      (upsert_with_retry_loop o b m d retries fuel attempts sleeps).attempts
          = attempts + (m - retries)
      ∧ (upsert_with_retry_loop o b m d retries fuel attempts sleeps).ret = 0
      ∧ (upsert_with_retry_loop o b m d retries fuel attempts sleeps).appended = [] := by
  intro fuel
  induction fuel with
  | zero =>
    intro retries attempts sleeps hle
    refine ⟨?_, rfl, rfl⟩
    have : m - retries = 0 := by omega
    simp [upsert_with_retry_loop, this]
  | succ fuel ih =>
    intro retries attempts sleeps hle
    by_cases h : retries < m
    · by_cases h2 : retries < m - 1
      · have heq : upsert_with_retry_loop o b m d retries (fuel + 1) attempts sleeps
            = upsert_with_retry_loop o b m d (retries + 1) fuel (attempts + 1)
                (sleeps ++ [actual_delay d (retries + 1)]) := by
          rw [upsert_loop_succ]
          simp [h, ho retries, h2]
        obtain ⟨h3, h4, h5⟩ := ih (retries + 1) (attempts + 1)
            (sleeps ++ [actual_delay d (retries + 1)]) (by omega)
        rw [heq]
        refine ⟨?_, h4, h5⟩
        rw [h3]
        omega
      · have heq : upsert_with_retry_loop o b m d retries (fuel + 1) attempts sleeps
            = ⟨0, [], attempts + 1, sleeps⟩ := by
          rw [upsert_loop_succ]
          simp [h, ho retries, h2]
        rw [heq]
        refine ⟨?_, rfl, rfl⟩
        simp
        omega
    · have heq : upsert_with_retry_loop o b m d retries (fuel + 1) attempts sleeps
          = ⟨0, [], attempts, sleeps⟩ := by
        rw [upsert_loop_succ]
        simp [h]
      rw [heq]
      refine ⟨?_, rfl, rfl⟩
      have : m - retries = 0 := by omega
      simp [this]

/-- C1: one call of upsert_with_retry on a non-empty batch has exactly one
of two outcomes — some sink attempt succeeds, exactly the ids of the whole
batch are appended to the checkpoint file in that call and the batch size
is returned, or the batch is abandoned, 0 is returned and no id at all is
appended.  In particular no proper subset of the ids is ever appended and
nothing is appended without a successful sink call. -/
theorem c1_deliver_all_or_nothing (o : Nat → SinkOutcome) (batch : List UpsertItem)
    (h : batch ≠ []) :
    ((upsert_with_retry o batch).ret = batch.length
      ∧ (upsert_with_retry o batch).appended = batch.map (fun v => v.id)
      ∧ (∃ a, a < 3 ∧ o a = SinkOutcome.success)
      ∧ (upsert_with_retry o batch).ret ≠ 0)
    ∨ ((upsert_with_retry o batch).ret = 0
      ∧ (upsert_with_retry o batch).appended = []
      ∧ (upsert_with_retry o batch).ret ≠ batch.length) := by
  have hb : batch.isEmpty = false := by
    simpa [List.isEmpty_iff] using h
  have hlen : batch.length ≠ 0 := by
    simpa [List.length_eq_zero] using h
  have hw : upsert_with_retry o batch
      = upsert_with_retry_loop o batch 3 5 0 3 0 [] := by
    simp [upsert_with_retry, hb]
  rcases upsert_loop_all_or_nothing o batch 3 5 3 0 0 [] with
    ⟨h1, h2, a, _, hlt, hs⟩ | ⟨h1, h2⟩
  · left
    rw [hw]
    exact ⟨h1, h2, ⟨a, hlt, hs⟩, by rw [h1]; exact hlen⟩
  · right
    rw [hw]
    exact ⟨h1, h2, by rw [h1]; exact fun hc => hlen hc.symm⟩

/-- Witness for c1_deliver_all_or_nothing at a concrete batch and an
always-succeeding sink. -/
theorem c1_deliver_all_or_nothing_witness :
    ([⟨"a", [0]⟩] : List UpsertItem) ≠ []
    ∧ (((upsert_with_retry (fun _ => SinkOutcome.success) [⟨"a", [0]⟩]).ret
          = ([⟨"a", [0]⟩] : List UpsertItem).length
        ∧ (upsert_with_retry (fun _ => SinkOutcome.success) [⟨"a", [0]⟩]).appended
            = ([⟨"a", [0]⟩] : List UpsertItem).map (fun v => v.id)
        ∧ (∃ a, a < 3 ∧ (fun _ => SinkOutcome.success) a = SinkOutcome.success)
        ∧ (upsert_with_retry (fun _ => SinkOutcome.success) [⟨"a", [0]⟩]).ret ≠ 0)
      ∨ ((upsert_with_retry (fun _ => SinkOutcome.success) [⟨"a", [0]⟩]).ret = 0
        ∧ (upsert_with_retry (fun _ => SinkOutcome.success) [⟨"a", [0]⟩]).appended = []
        ∧ (upsert_with_retry (fun _ => SinkOutcome.success) [⟨"a", [0]⟩]).ret
            ≠ ([⟨"a", [0]⟩] : List UpsertItem).length)) :=
  ⟨by decide, c1_deliver_all_or_nothing (fun _ => SinkOutcome.success)
    [⟨"a", [0]⟩] (by decide)⟩

/-- C10: calling upsert_with_retry with an empty batch returns 0, makes no
sink upsert call, performs no sleep, and appends nothing to the
checkpoint file. -/
theorem c10_empty_batch_noop (o : Nat → SinkOutcome) :
    upsert_with_retry o [] = ⟨0, [], 0, []⟩ := rfl

/-- C3: with the code defaults (max_retries = 3, initial_delay = 5), a
sink that fails retryably on the first two attempts and succeeds on the
third makes deliver return the batch size with the batch ids appended
exactly once and exactly three attempts made — no fourth attempt; and in
general a batch that fails retryably on every attempt is attempted
exactly max_retries times, after which 0 is returned and nothing is
appended. -/
theorem c3_third_attempt_delivers (batch : List UpsertItem) (h : batch ≠ []) :
    ((upsert_with_retry two_timeouts_then_success batch).ret = batch.length
      ∧ (upsert_with_retry two_timeouts_then_success batch).appended
          = batch.map (fun v => v.id)
      ∧ (upsert_with_retry two_timeouts_then_success batch).attempts = 3)
    ∧ (∀ (m : Nat) (o : Nat → SinkOutcome), (∀ a, o a = SinkOutcome.retryable) →
        (upsert_with_retry o batch m).attempts = m
        ∧ (upsert_with_retry o batch m).ret = 0
        ∧ (upsert_with_retry o batch m).appended = []) := by
  rcases batch with _ | ⟨x, xs⟩
  · exact absurd rfl h
  · refine ⟨⟨rfl, rfl, rfl⟩, ?_⟩
    intro m o ho
    have hw : upsert_with_retry o (x :: xs) m
        = upsert_with_retry_loop o (x :: xs) m 5 0 m 0 [] := rfl
    obtain ⟨a1, a2, a3⟩ :=
      upsert_loop_all_retryable o (x :: xs) m 5 ho m 0 0 [] (by omega)
    rw [hw]
    exact ⟨by rw [a1]; omega, a2, a3⟩

/-- Witness for c3_third_attempt_delivers at a concrete one-item batch. -/
theorem c3_third_attempt_delivers_witness :
    ([⟨"a", [0]⟩] : List UpsertItem) ≠ []
    ∧ (upsert_with_retry two_timeouts_then_success [⟨"a", [0]⟩]).ret = 1
    ∧ (upsert_with_retry two_timeouts_then_success [⟨"a", [0]⟩]).appended = ["a"]
    ∧ (upsert_with_retry two_timeouts_then_success [⟨"a", [0]⟩]).attempts = 3
    ∧ (upsert_with_retry (fun _ => SinkOutcome.retryable) [⟨"a", [0]⟩] 3).attempts = 3
    ∧ (upsert_with_retry (fun _ => SinkOutcome.retryable) [⟨"a", [0]⟩] 3).ret = 0
    ∧ (upsert_with_retry (fun _ => SinkOutcome.retryable) [⟨"a", [0]⟩] 3).appended
        = [] := by
  have H := c3_third_attempt_delivers [⟨"a", [0]⟩] (by decide)
  have H2 := H.2 3 (fun _ => SinkOutcome.retryable) (fun _ => rfl)
  exact ⟨by decide, H.1.1, H.1.2.1, H.1.2.2, H2.1, H2.2.1, H2.2.2⟩

/-- C4: every sleep the retry loop performs (with the code parameters
initial_delay = 5, cap = 60, max_retries = 3) equals
actual_delay 5 a = min(5 * 2 ^ a, 60) for its retry number a, counted
from 1; and this delay sequence is non-decreasing in a and, once it
equals the cap 60, stays at the cap. -/
theorem c4_backoff_delays :
    (∀ (o : Nat → SinkOutcome) (batch : List UpsertItem),
      ∃ n, n ≤ 2 ∧ (upsert_with_retry o batch).sleeps
          = (List.range n).map (fun j => actual_delay 5 (j + 1)))
    ∧ (∀ d a, actual_delay d a ≤ actual_delay d (a + 1))
    ∧ (∀ d a, actual_delay d a = 60 → actual_delay d (a + 1) = 60) := by
  refine ⟨?_, ?_, ?_⟩
  · intro o batch
    rcases batch with _ | ⟨x, xs⟩
    · exact ⟨0, by omega, rfl⟩
    · have hw : upsert_with_retry o (x :: xs)
          = upsert_with_retry_loop o (x :: xs) 3 5 0 (0 + 1 + 1 + 1) 0 [] := rfl
      rcases h0 : o 0 with _ | _ | _
      · exact ⟨0, by omega, by rw [hw, upsert_loop_succ, h0]; rfl⟩
      · rcases h1 : o 1 with _ | _ | _
        · exact ⟨1, by omega,
            by rw [hw, upsert_loop_succ, h0, upsert_loop_succ, h1]; rfl⟩
        · rcases h2 : o 2 with _ | _ | _
          · exact ⟨2, by omega,
              by rw [hw, upsert_loop_succ, h0, upsert_loop_succ, h1,
                upsert_loop_succ, h2]; rfl⟩
          · exact ⟨2, by omega,
              by rw [hw, upsert_loop_succ, h0, upsert_loop_succ, h1,
                upsert_loop_succ, h2]; rfl⟩
          · exact ⟨2, by omega,
              by rw [hw, upsert_loop_succ, h0, upsert_loop_succ, h1,
                upsert_loop_succ, h2]; rfl⟩
        · exact ⟨1, by omega,
            by rw [hw, upsert_loop_succ, h0, upsert_loop_succ, h1]; rfl⟩
      · exact ⟨0, by omega, by rw [hw, upsert_loop_succ, h0]; rfl⟩
  · intro d a
    unfold actual_delay
    gcongr <;> omega
  · intro d a h
    have h1 : 60 ≤ d * 2 ^ a := min_eq_right_iff.mp h
    have h2 : d * 2 ^ a ≤ d * 2 ^ (a + 1) := by gcongr <;> omega
    exact min_eq_right (by omega)

/-- Witness for c4_backoff_delays: the sequence of delays reaches the cap
at retry 4 (min(5·2^4, 60) = 60) and stays there at retry 5. -/
theorem c4_backoff_delays_witness :
    actual_delay 5 4 = 60 ∧ actual_delay 5 (4 + 1) = 60 :=
  ⟨by decide, c4_backoff_delays.2.2 5 4 (by decide)⟩

/-- If the sink attempts starting at retries fail retryably for k attempts
and then fail non-retryably, the loop returns 0 at that very attempt:
exactly k + 1 further attempts, k further sleeps, nothing appended. -/
theorem upsert_loop_nonretryable (o : Nat → SinkOutcome) (b : List UpsertItem)
    (m d : Nat) :
    ∀ k retries fuel attempts sleeps,
      retries + k < m → k < fuel →
      o (retries + k) = SinkOutcome.nonRetryable →
      (∀ j, j < k → o (retries + j) = SinkOutcome.retryable) →
      (upsert_with_retry_loop o b m d retries fuel attempts sleeps).ret = 0
      ∧ (upsert_with_retry_loop o b m d retries fuel attempts sleeps).appended = []
      ∧ (upsert_with_retry_loop o b m d retries fuel attempts sleeps).attempts
          = attempts + k + 1
      ∧ (upsert_with_retry_loop o b m d retries fuel attempts sleeps).sleeps.length
          = sleeps.length + k := by
  intro k
  induction k with
  | zero =>
    intro retries fuel attempts sleeps h1 h2 h3 h4
    obtain ⟨f, rfl⟩ : ∃ f, fuel = f + 1 := ⟨fuel - 1, by omega⟩
    have hlt : retries < m := by omega
    have h3a : o retries = SinkOutcome.nonRetryable := by simpa using h3
    rw [upsert_loop_succ, if_pos hlt, h3a]
    exact ⟨rfl, rfl, rfl, rfl⟩
  | succ k ih =>
    intro retries fuel attempts sleeps h1 h2 h3 h4
    obtain ⟨f, rfl⟩ : ∃ f, fuel = f + 1 := ⟨fuel - 1, by omega⟩
    have hret : o retries = SinkOutcome.retryable := by
      simpa using h4 0 (by omega)
    have hlt : retries < m := by omega
    have hlt2 : retries < m - 1 := by omega
    have heq : upsert_with_retry_loop o b m d retries (f + 1) attempts sleeps
        = upsert_with_retry_loop o b m d (retries + 1) f (attempts + 1)
            (sleeps ++ [actual_delay d (retries + 1)]) := by
      rw [upsert_loop_succ, if_pos hlt, hret, if_pos hlt2]
    have h3a : o (retries + 1 + k) = SinkOutcome.nonRetryable := by
      have he : retries + 1 + k = retries + (k + 1) := by omega
      rw [he]; exact h3
    have h4a : ∀ j, j < k → o (retries + 1 + j) = SinkOutcome.retryable := by
      intro j hj
      have he : retries + 1 + j = retries + (j + 1) := by omega
      rw [he]; exact h4 (j + 1) (by omega)
    obtain ⟨a1, a2, a3, a4⟩ := ih (retries + 1) f (attempts + 1)
        (sleeps ++ [actual_delay d (retries + 1)]) (by omega) (by omega) h3a h4a
    rw [heq]
    refine ⟨a1, a2, by rw [a3]; omega, ?_⟩
    rw [a4]
    simp only [List.length_append, List.length_cons, List.length_nil]
    omega

/-- The rolling buffer and the sequence of batches passed to the sink do
not depend on the sink outcomes: after every flush the buffer is reset
whether or not the delivery succeeded, so delivery failures never change
which later batches get attempted. -/
theorem foldl_calls_outcome_indep (B : Nat) (o1 o2 : Nat → Nat → SinkOutcome) :
    ∀ (items : List UpsertItem) (st1 st2 : PipeState),
      st1.vectors_to_upsert_buffer = st2.vectors_to_upsert_buffer →
      st1.sink_calls = st2.sink_calls →
      (items.foldl (process_item B o1) st1).vectors_to_upsert_buffer
          = (items.foldl (process_item B o2) st2).vectors_to_upsert_buffer
      ∧ (items.foldl (process_item B o1) st1).sink_calls
          = (items.foldl (process_item B o2) st2).sink_calls := by
  intro items
  induction items with
  | nil =>
    intro st1 st2 h1 h2
    exact ⟨h1, h2⟩
  | cons x xs ih =>
    intro st1 st2 h1 h2
    simp only [List.foldl_cons]
    apply ih
    · by_cases hB : B ≤ st2.vectors_to_upsert_buffer.length + 1 <;>
        simp [process_item, h1, h2, hB]
    · by_cases hB : B ≤ st2.vectors_to_upsert_buffer.length + 1 <;>
        simp [process_item, h1, h2, hB]

/-- Outcome independence extends through the DRAIN stage. -/
theorem run_deliveries_calls_indep (B : Nat) (o1 o2 : Nat → Nat → SinkOutcome)
    (items : List UpsertItem) :
    (run_deliveries B o1 items).sink_calls = (run_deliveries B o2 items).sink_calls := by
  obtain ⟨hbuf, hcalls⟩ :=
    foldl_calls_outcome_indep B o1 o2 items init_state init_state rfl rfl
  simp only [run_deliveries, drain, hbuf, hcalls]
  by_cases hE : (items.foldl (process_item B o2) init_state).vectors_to_upsert_buffer.isEmpty
    <;> simp [hE, hbuf, hcalls]

/-- C5: a sink error outside the retryable classes abandons the batch at
the very attempt where it occurs, with the code defaults
(max_retries = 3): no further attempt is made, no backoff sleep is added,
no id is appended, 0 is returned; and the run goes on to the remaining
batches — which batches are flushed to the sink is independent of any
delivery failures. -/
theorem c5_non_retryable_abandons_immediately (o : Nat → SinkOutcome)
    (batch : List UpsertItem) (h : batch ≠ []) (k : Nat) (hk : k < 3)
    (hnr : o k = SinkOutcome.nonRetryable)
    (hpre : ∀ j, j < k → o j = SinkOutcome.retryable) :
    ((upsert_with_retry o batch).ret = 0
      ∧ (upsert_with_retry o batch).appended = []
      ∧ (upsert_with_retry o batch).attempts = k + 1
      ∧ (upsert_with_retry o batch).sleeps.length = k)
    ∧ (∀ (B : Nat) (o1 o2 : Nat → Nat → SinkOutcome) (items : List UpsertItem),
        (run_deliveries B o1 items).sink_calls
          = (run_deliveries B o2 items).sink_calls) := by
  refine ⟨?_, fun B o1 o2 items => run_deliveries_calls_indep B o1 o2 items⟩
  have hb : batch.isEmpty = false := by
    simpa [List.isEmpty_iff] using h
  have hw : upsert_with_retry o batch
      = upsert_with_retry_loop o batch 3 5 0 3 0 [] := by
    simp [upsert_with_retry, hb]
  obtain ⟨a1, a2, a3, a4⟩ := upsert_loop_nonretryable o batch 3 5 k 0 3 0 []
    (by omega) (by omega) (by simpa using hnr) (by simpa using hpre)
  rw [hw]
  exact ⟨a1, a2, by rw [a3]; omega, by rw [a4]; simp⟩

/-- Witness for c5_non_retryable_abandons_immediately: an authentication
error on the very first attempt. -/
theorem c5_non_retryable_abandons_immediately_witness :
    ([⟨"a", [0]⟩] : List UpsertItem) ≠ []
    ∧ (0 : Nat) < 3
    ∧ (upsert_with_retry (fun _ => SinkOutcome.nonRetryable) [⟨"a", [0]⟩]).ret = 0
    ∧ (upsert_with_retry (fun _ => SinkOutcome.nonRetryable) [⟨"a", [0]⟩]).appended = []
    ∧ (upsert_with_retry (fun _ => SinkOutcome.nonRetryable) [⟨"a", [0]⟩]).attempts = 1
    ∧ (upsert_with_retry (fun _ => SinkOutcome.nonRetryable) [⟨"a", [0]⟩]).sleeps.length
        = 0 := by
  have H := c5_non_retryable_abandons_immediately (fun _ => SinkOutcome.nonRetryable)
    [⟨"a", [0]⟩] (by decide) 0 (by decide) rfl (fun j hj => absurd hj (by omega))
  exact ⟨by decide, by decide, H.1.1, H.1.2.1, H.1.2.2.1, H.1.2.2.2⟩

/-- Buffer-flush invariant of the delivery loop: starting from a state
whose buffer is shorter than B and whose past sink calls each hold
exactly B items, folding any items keeps both facts, and the flushed
batches followed by the current buffer are exactly the starting batches,
starting buffer and folded items in order. -/
theorem foldl_buffer_invariant (B : Nat) (hB : 0 < B)
    (outcome : Nat → Nat → SinkOutcome) :
    ∀ (items : List UpsertItem) (st : PipeState),
      st.vectors_to_upsert_buffer.length < B →
      (∀ c ∈ st.sink_calls, c.length = B) →
      ((items.foldl (process_item B outcome) st).sink_calls.flatten
          ++ (items.foldl (process_item B outcome) st).vectors_to_upsert_buffer
        = st.sink_calls.flatten ++ st.vectors_to_upsert_buffer ++ items)
      ∧ (∀ c ∈ (items.foldl (process_item B outcome) st).sink_calls, c.length = B)
      ∧ (items.foldl (process_item B outcome) st).vectors_to_upsert_buffer.length < B := by
  intro items
  induction items with
  | nil =>
    intro st h1 h2
    exact ⟨by simp, h2, h1⟩
  | cons x xs ih =>
    intro st h1 h2
    simp only [List.foldl_cons]
    by_cases hB2 : B ≤ st.vectors_to_upsert_buffer.length + 1
    · have hv : (process_item B outcome st x).vectors_to_upsert_buffer = [] := by
        simp [process_item, hB2]
      have hc : (process_item B outcome st x).sink_calls
          = st.sink_calls ++ [st.vectors_to_upsert_buffer ++ [x]] := by
        simp [process_item, hB2]
      obtain ⟨e1, e2, e3⟩ := ih (process_item B outcome st x)
        (by rw [hv]; simpa using hB)
        (by
          rw [hc]
          intro c hmem
          rcases List.mem_append.mp hmem with hl | hr
          · exact h2 c hl
          · have hceq : c = st.vectors_to_upsert_buffer ++ [x] := by
              simpa using hr
            rw [hceq]
            simp only [List.length_append, List.length_cons, List.length_nil]
            omega)
      refine ⟨?_, e2, e3⟩
      rw [e1, hv, hc]
      simp [List.append_assoc]
    · have hv : (process_item B outcome st x).vectors_to_upsert_buffer
          = st.vectors_to_upsert_buffer ++ [x] := by
        simp [process_item, hB2]
      have hc : (process_item B outcome st x).sink_calls = st.sink_calls := by
        simp [process_item, hB2]
      obtain ⟨e1, e2, e3⟩ := ih (process_item B outcome st x)
        (by
          rw [hv]
          simp only [List.length_append, List.length_cons, List.length_nil]
          omega)
        (by rw [hc]; exact h2)
      refine ⟨?_, e2, e3⟩
      rw [e1, hv, hc]
      simp [List.append_assoc]

set_option maxRecDepth 10000 in
/-- C9 counterexample data: after folding exactly 100 items against a
sink whose every attempt fails retryably, the one flushed batch was
abandoned (nothing checkpointed, nothing counted) and yet the rolling
buffer is empty — the undelivered items do not remain in it. -/
theorem c9_counterexample_abandoned_batch_discarded :
    (hundred_items.foldl (process_item 100 all_retryable) init_state).sink_calls.length
        = 1
    ∧ (hundred_items.foldl (process_item 100 all_retryable) init_state).checkpoint = []
    ∧ (hundred_items.foldl
        (process_item 100 all_retryable) init_state).processed_count_in_run = 0
    ∧ (hundred_items.foldl
        (process_item 100 all_retryable) init_state).vectors_to_upsert_buffer = []
    ∧ (run_deliveries 100 all_retryable hundred_items).vectors_to_upsert_buffer
        = [] := by
  exact ⟨rfl, rfl, rfl, rfl, rfl⟩

/-- C9 (amended): whenever the rolling buffer reaches B items, the entire
buffer — exactly one DeliveryBatch of exactly B items — is passed to
upsert_with_retry as one sink call and the buffer is cleared afterwards
whether or not the delivery succeeded; every folded item ends up either
inside some flushed batch or still in the buffer (nothing is lost
silently mid-run), the buffer stays shorter than B between flushes, and
after DRAIN it is empty.  An abandoned batch is thus discarded from the
buffer for the rest of the run; its ids are retried on the next
invocation because they were never appended to the checkpoint. -/
theorem c9_flush_clears_whole_buffer (B : Nat) (hB : 0 < B)
    (outcome : Nat → Nat → SinkOutcome) (items : List UpsertItem) :
    ((items.foldl (process_item B outcome) init_state).sink_calls.flatten
        ++ (items.foldl (process_item B outcome) init_state).vectors_to_upsert_buffer
      = items)
    ∧ (∀ c ∈ (items.foldl (process_item B outcome) init_state).sink_calls,
        c.length = B)
    ∧ (items.foldl (process_item B outcome) init_state).vectors_to_upsert_buffer.length
        < B
    ∧ (run_deliveries B outcome items).vectors_to_upsert_buffer = [] := by
  obtain ⟨e1, e2, e3⟩ := foldl_buffer_invariant B hB outcome items init_state
    (by simpa [init_state] using hB)
    (by intro c hc; simp [init_state] at hc)
  refine ⟨by simpa [init_state] using e1, e2, e3, ?_⟩
  simp only [run_deliveries, drain]
  by_cases hE : (items.foldl
      (process_item B outcome) init_state).vectors_to_upsert_buffer.isEmpty
  · simp only [hE, if_pos]
    exact List.isEmpty_iff.mp hE
  · simp [hE]

/-- Witness for c9_flush_clears_whole_buffer at B = 2 with three items
and an always-failing sink. -/
theorem c9_flush_clears_whole_buffer_witness :
    (0 : Nat) < 2
    ∧ ((([⟨"a", [0]⟩, ⟨"b", [0]⟩, ⟨"c", [0]⟩] : List UpsertItem).foldl
          (process_item 2 all_retryable) init_state).sink_calls.flatten
        ++ (([⟨"a", [0]⟩, ⟨"b", [0]⟩, ⟨"c", [0]⟩] : List UpsertItem).foldl
          (process_item 2 all_retryable) init_state).vectors_to_upsert_buffer
      = [⟨"a", [0]⟩, ⟨"b", [0]⟩, ⟨"c", [0]⟩])
    ∧ (∀ c ∈ (([⟨"a", [0]⟩, ⟨"b", [0]⟩, ⟨"c", [0]⟩] : List UpsertItem).foldl
          (process_item 2 all_retryable) init_state).sink_calls, c.length = 2)
    ∧ (([⟨"a", [0]⟩, ⟨"b", [0]⟩, ⟨"c", [0]⟩] : List UpsertItem).foldl
          (process_item 2 all_retryable) init_state).vectors_to_upsert_buffer.length
        < 2
    ∧ (run_deliveries 2 all_retryable
          [⟨"a", [0]⟩, ⟨"b", [0]⟩, ⟨"c", [0]⟩]).vectors_to_upsert_buffer = [] :=
  ⟨by decide, c9_flush_clears_whole_buffer 2 (by decide) all_retryable
    [⟨"a", [0]⟩, ⟨"b", [0]⟩, ⟨"c", [0]⟩]⟩

/-- Membership characterisation of the FILTERING stage. -/
theorem mem_filter_unprocessed (df : List Record) (cps : List String) (r : Record) :
    r ∈ filter_unprocessed df cps ↔ r ∈ df ∧ r.post_id ∉ cps := by
  simp [filter_unprocessed, List.mem_filter]

/-- On a sink that succeeds immediately, upsert_with_retry of a non-empty
batch makes one attempt, appends the batch ids and returns the batch
size. -/
theorem upsert_all_success (n : Nat) (b : List UpsertItem) (h : b ≠ []) :
    upsert_with_retry (all_success n) b
      = ⟨b.length, b.map (fun v => v.id), 1, []⟩ := by
  rcases b with _ | ⟨x, xs⟩
  · exact absurd rfl h
  · rfl

/-- When every sink call succeeds, the delivery loop keeps the checkpoint
equal to the ids of all flushed batches and the run counter equal to the
number of flushed items. -/
theorem foldl_all_success (B : Nat) (hB : 0 < B) :
    ∀ (items : List UpsertItem) (st : PipeState),
      st.vectors_to_upsert_buffer.length < B →
      st.checkpoint = st.sink_calls.flatten.map (fun v => v.id) →
      st.processed_count_in_run = st.sink_calls.flatten.length →
      ((items.foldl (process_item B all_success) st).checkpoint
          = (items.foldl
              (process_item B all_success) st).sink_calls.flatten.map (fun v => v.id))
      ∧ ((items.foldl (process_item B all_success) st).processed_count_in_run
          = (items.foldl (process_item B all_success) st).sink_calls.flatten.length)
      ∧ (items.foldl
          (process_item B all_success) st).vectors_to_upsert_buffer.length < B := by
  intro items
  induction items with
  | nil =>
    intro st h1 h2 h3
    exact ⟨h2, h3, h1⟩
  | cons x xs ih =>
    intro st h1 h2 h3
    simp only [List.foldl_cons]
    by_cases hB2 : B ≤ st.vectors_to_upsert_buffer.length + 1
    · have hne : st.vectors_to_upsert_buffer ++ [x] ≠ [] := by simp
      have hup := upsert_all_success st.sink_calls.length
        (st.vectors_to_upsert_buffer ++ [x]) hne
      have hv : (process_item B all_success st x).vectors_to_upsert_buffer = [] := by
        simp [process_item, hB2]
      have hc : (process_item B all_success st x).sink_calls
          = st.sink_calls ++ [st.vectors_to_upsert_buffer ++ [x]] := by
        simp [process_item, hB2]
      have hck : (process_item B all_success st x).checkpoint
          = st.checkpoint
              ++ (st.vectors_to_upsert_buffer ++ [x]).map (fun v => v.id) := by
        simp [process_item, hB2, hup]
      have hpc : (process_item B all_success st x).processed_count_in_run
          = st.processed_count_in_run
              + (st.vectors_to_upsert_buffer ++ [x]).length := by
        simp [process_item, hB2, hup]
      apply ih
      · rw [hv]
        simpa using hB
      · rw [hck, hc, h2]
        simp
      · rw [hpc, hc, h3]
        simp
    · have hv : (process_item B all_success st x).vectors_to_upsert_buffer
          = st.vectors_to_upsert_buffer ++ [x] := by
        simp [process_item, hB2]
      have hc : (process_item B all_success st x).sink_calls = st.sink_calls := by
        simp [process_item, hB2]
      have hck : (process_item B all_success st x).checkpoint = st.checkpoint := by
        simp [process_item, hB2]
      have hpc : (process_item B all_success st x).processed_count_in_run
          = st.processed_count_in_run := by
        simp [process_item, hB2]
      apply ih
      · rw [hv]
        simp only [List.length_append, List.length_cons, List.length_nil]
        omega
      · rw [hck, hc]
        exact h2
      · rw [hpc, hc]
        exact h3

/-- When every sink call succeeds, a whole run (including DRAIN) appends
exactly the ids of all folded items to the checkpoint, counts all of
them processed, and the flushed batches partition the folded items. -/
theorem run_deliveries_all_success (B : Nat) (hB : 0 < B) (items : List UpsertItem) :
    (run_deliveries B all_success items).checkpoint = items.map (fun v => v.id)
    ∧ (run_deliveries B all_success items).processed_count_in_run = items.length
    ∧ (run_deliveries B all_success items).sink_calls.flatten = items := by
  obtain ⟨e1, e2, e3⟩ := foldl_buffer_invariant B hB all_success items init_state
    (by simpa [init_state] using hB)
    (by intro c hc; simp [init_state] at hc)
  obtain ⟨f1, f2, f3⟩ := foldl_all_success B hB items init_state
    (by simpa [init_state] using hB) (by simp [init_state]) (by simp [init_state])
  have e1a : (items.foldl (process_item B all_success) init_state).sink_calls.flatten
      ++ (items.foldl
          (process_item B all_success) init_state).vectors_to_upsert_buffer
      = items := by
    simpa [init_state] using e1
  simp only [run_deliveries, drain]
  by_cases hE : (items.foldl
      (process_item B all_success) init_state).vectors_to_upsert_buffer.isEmpty
  · have hbe : (items.foldl
        (process_item B all_success) init_state).vectors_to_upsert_buffer = [] :=
      List.isEmpty_iff.mp hE
    have hfl : (items.foldl
        (process_item B all_success) init_state).sink_calls.flatten = items := by
      rw [hbe] at e1a
      simpa using e1a
    simp only [hE, if_pos]
    refine ⟨by rw [f1, hfl], by rw [f2, hfl], hfl⟩
  · have hbne : (items.foldl
        (process_item B all_success) init_state).vectors_to_upsert_buffer ≠ [] := by
      simpa [List.isEmpty_iff] using hE
    have hup := upsert_all_success
      (items.foldl (process_item B all_success) init_state).sink_calls.length
      (items.foldl (process_item B all_success) init_state).vectors_to_upsert_buffer
      hbne
    have hpos : 0 < (items.foldl
        (process_item B all_success) init_state).vectors_to_upsert_buffer.length :=
      List.length_pos.mpr hbne
    simp only [hE, if_neg, Bool.false_eq_true, not_false_iff, hup, hpos, if_pos]
    refine ⟨?_, ?_, ?_⟩
    · rw [f1, ← List.map_append, e1a]
    · rw [f2]
      have := congrArg List.length e1a
      simpa using this
    · simp only [List.flatten_append, List.flatten_cons, List.flatten_nil,
        List.append_nil]
      exact e1a

/-- The total size of a family of batches all of length B. -/
theorem flatten_length_const (B : Nat) :
    ∀ (L : List (List UpsertItem)), (∀ c ∈ L, c.length = B) →
      L.flatten.length = B * L.length := by
  intro L
  induction L with
  | nil => intro h; simp
  | cons c cs ih =>
    intro h
    have hc : c.length = B := h c (List.mem_cons_self c cs)
    have hcs := ih (fun x hx => h x (List.mem_cons_of_mem c hx))
    simp only [List.flatten_cons, List.length_append, List.length_cons, hc, hcs,
      Nat.mul_succ]
    omega

/-- The slices taken at 0, B, 2B, ... concatenate back to the input. -/
theorem prepare_aux_flatten (B : Nat) (_hB : B ≠ 0) :
    ∀ (n : Nat) (df : List Record), df.length ≤ n * B →
      ((List.range n).map (fun i => (df.drop (i * B)).take B)).flatten = df := by
  intro n
  induction n with
  | zero =>
    intro df h
    have hdf : df = [] := List.length_eq_zero.mp (by omega)
    simp [hdf]
  | succ n ih =>
    intro df h
    rw [List.range_succ_eq_map]
    simp only [List.map_cons, List.flatten_cons, List.map_map, Nat.zero_mul,
      List.drop_zero]
    have hfun : ∀ i ∈ List.range n,
        ((fun i => (df.drop (i * B)).take B) ∘ Nat.succ) i
          = (fun i => ((df.drop B).drop (i * B)).take B) i := by
      intro i _
      simp only [Function.comp_apply, List.drop_drop]
      have : Nat.succ i * B = B + i * B := by
        rw [Nat.succ_mul]
        omega
      rw [this]
    rw [List.map_congr_left hfun]
    rw [Nat.succ_mul] at h
    rw [ih (df.drop B) (by simp only [List.length_drop]; omega)]
    exact List.take_append_drop B df

/-- prepare_batches partitions its input in order. -/
theorem prepare_batches_flatten (df : List Record) (B : Nat) (hB : B ≠ 0) :
    (prepare_batches df B).flatten = df := by
  rw [prepare_batches, if_neg hB]
  apply prepare_aux_flatten B hB
  rw [Nat.mul_comm]
  have h1 := Nat.div_add_mod (df.length + B - 1) B
  have h2 : (df.length + B - 1) % B < B := Nat.mod_lt _ (Nat.pos_of_ne_zero hB)
  omega

/-- The ids of the prepared vectors are the ids of the chunked records,
in order. -/
theorem chunk_items_ids (E : String → List Int) :
    ∀ (L : List (List Record)),
      ((L.map (chunk_to_items E)).flatten).map (fun v => v.id)
        = L.flatten.map (fun r => r.post_id) := by
  intro L
  induction L with
  | nil => simp
  | cons c cs ih =>
    simp only [List.map_cons, List.flatten_cons, List.map_append, ih,
      chunk_to_items, List.map_map]
    rfl

set_option maxRecDepth 20000 in
/-- C2: FILTERING keeps exactly the records whose id is not in the
checkpoint set loaded at startup, so an id appended in a prior run is
never processed again; in Scenario B (250 records, the first 50 ids
pre-checkpointed) exactly the 200 non-checkpointed records remain, and
the subsequent stages process exactly those 200. -/
theorem c2_filtering_excludes_checkpointed :
    (∀ (df : List Record) (cps : List String) (r : Record),
        r ∈ filter_unprocessed df cps ↔ r ∈ df ∧ r.post_id ∉ cps)
    ∧ (∀ (df : List Record) (cps prior : List String) (r : Record),
        r.post_id ∈ prior → r ∉ filter_unprocessed df (cps ++ prior))
    ∧ (filter_unprocessed scenario_records scenarioB_checkpoint).length = 200
    ∧ filter_unprocessed scenario_records scenarioB_checkpoint
        = scenario_records.drop 50
    ∧ (run_pipeline embed_const all_success
          (filter_unprocessed scenario_records
            scenarioB_checkpoint)).processed_count_in_run = 200 := by
  have hlen : (filter_unprocessed scenario_records scenarioB_checkpoint).length
      = 200 := by rfl
  refine ⟨mem_filter_unprocessed, ?_, hlen, by rfl, ?_⟩
  · intro df cps prior r hr hmem
    exact ((mem_filter_unprocessed df (cps ++ prior) r).mp hmem).2
      (List.mem_append.mpr (Or.inr hr))
  · show (run_deliveries 100 all_success
        (((prepare_batches
            (filter_unprocessed scenario_records scenarioB_checkpoint) 100).map
          (chunk_to_items embed_const)).flatten)).processed_count_in_run = 200
    rw [(run_deliveries_all_success 100 (by omega)
      (((prepare_batches
          (filter_unprocessed scenario_records scenarioB_checkpoint) 100).map
        (chunk_to_items embed_const)).flatten)).2.1]
    have hids := chunk_items_ids embed_const
      (prepare_batches (filter_unprocessed scenario_records scenarioB_checkpoint) 100)
    have hfl := prepare_batches_flatten
      (filter_unprocessed scenario_records scenarioB_checkpoint) 100 (by omega)
    have hlen2 := congrArg List.length hids
    simp only [List.length_map] at hlen2
    rw [hlen2, hfl, hlen]

/-- Witness for c2_filtering_excludes_checkpointed: a record whose id was
appended in a prior run is excluded from the next run. -/
theorem c2_filtering_excludes_checkpointed_witness :
    (⟨"7", "t"⟩ : Record).post_id ∈ ["7"]
    ∧ (⟨"7", "t"⟩ : Record) ∉ filter_unprocessed [⟨"7", "t"⟩] ([] ++ ["7"]) :=
  ⟨by decide, c2_filtering_excludes_checkpointed.2.1 [⟨"7", "t"⟩] [] ["7"]
    ⟨"7", "t"⟩ (by decide)⟩

/-- C8 (Scenario A): 250 records, embed batch size 100, delivery batch
size 100, every provider and sink call succeeding — exactly 3 embedding
batches of sizes 100, 100, 50 that partition the input in order, only 2
sink calls before DRAIN with exactly 50 vectors left in the buffer, 3
sink calls of sizes 100, 100, 50 in total, the checkpoint ending with
all 250 ids, and 250 items counted processed. -/
theorem c8_scenarioA_three_calls :
    (prepare_batches scenario_records OPENAI_EMBEDDING_BATCH_SIZE).map List.length
        = [100, 100, 50]
    ∧ (prepare_batches scenario_records OPENAI_EMBEDDING_BATCH_SIZE).flatten
        = scenario_records
    ∧ scenarioA_mid.sink_calls.map List.length = [100, 100]
    ∧ scenarioA_mid.vectors_to_upsert_buffer.length = 50
    ∧ scenarioA_final.sink_calls.map List.length = [100, 100, 50]
    ∧ scenarioA_final.checkpoint = scenario_records.map Record.post_id
    ∧ scenarioA_final.processed_count_in_run = 250 := by
  have hrl : scenario_records.length = 250 := by
    simp [scenario_records]
  have h1 : (prepare_batches scenario_records 100).map List.length
      = [100, 100, 50] := by
    rw [prepare_batches, if_neg (by omega), hrl,
      show (250 + 100 - 1) / 100 = 3 from by norm_num,
      show List.range 3 = [0, 1, 2] from rfl]
    simp [List.length_take, List.length_drop, hrl]
  have hfl := prepare_batches_flatten scenario_records 100 (by omega)
  have hids := chunk_items_ids embed_const (prepare_batches scenario_records 100)
  rw [hfl] at hids
  have hlenA : (((prepare_batches scenario_records 100).map
      (chunk_to_items embed_const)).flatten).length = 250 := by
    have := congrArg List.length hids
    simp only [List.length_map] at this
    rw [this, hrl]
  obtain ⟨e1, e2, e3⟩ := foldl_buffer_invariant 100 (by omega) all_success
    (((prepare_batches scenario_records 100).map
      (chunk_to_items embed_const)).flatten) init_state
    (by simp [init_state]) (by intro c hc; simp [init_state] at hc)
  have e1a : ((((prepare_batches scenario_records 100).map
        (chunk_to_items embed_const)).flatten).foldl
          (process_item 100 all_success) init_state).sink_calls.flatten
      ++ ((((prepare_batches scenario_records 100).map
        (chunk_to_items embed_const)).flatten).foldl
          (process_item 100 all_success) init_state).vectors_to_upsert_buffer
      = (((prepare_batches scenario_records 100).map
          (chunk_to_items embed_const)).flatten) := by
    simpa [init_state] using e1
  have hflc := flatten_length_const 100 _ e2
  have hlensum := congrArg List.length e1a
  simp only [List.length_append] at hlensum
  rw [hflc, hlenA] at hlensum
  have hn : ((((prepare_batches scenario_records 100).map
      (chunk_to_items embed_const)).flatten).foldl
        (process_item 100 all_success) init_state).sink_calls.length = 2 := by
    omega
  have hbuf50 : ((((prepare_batches scenario_records 100).map
      (chunk_to_items embed_const)).flatten).foldl
        (process_item 100 all_success) init_state).vectors_to_upsert_buffer.length
      = 50 := by
    omega
  have h3 : ((((prepare_batches scenario_records 100).map
      (chunk_to_items embed_const)).flatten).foldl
        (process_item 100 all_success) init_state).sink_calls.map List.length
      = [100, 100] := by
    rw [show ([100, 100] : List Nat) = List.replicate 2 100 from rfl,
      List.eq_replicate_iff]
    refine ⟨by simpa using hn, ?_⟩
    intro b hb
    obtain ⟨c, hc, rfl⟩ := List.mem_map.mp hb
    exact e2 c hc
  have hbne : ((((prepare_batches scenario_records 100).map
      (chunk_to_items embed_const)).flatten).foldl
        (process_item 100 all_success) init_state).vectors_to_upsert_buffer
      ≠ [] := by
    intro hx
    rw [hx] at hbuf50
    simp at hbuf50
  have hEfalse : ((((prepare_batches scenario_records 100).map
      (chunk_to_items embed_const)).flatten).foldl
        (process_item 100 all_success) init_state).vectors_to_upsert_buffer.isEmpty
      = false := by
    simpa [List.isEmpty_iff] using hbne
  have hfinal_calls : scenarioA_final.sink_calls
      = ((((prepare_batches scenario_records 100).map
          (chunk_to_items embed_const)).flatten).foldl
            (process_item 100 all_success) init_state).sink_calls
        ++ [((((prepare_batches scenario_records 100).map
          (chunk_to_items embed_const)).flatten).foldl
            (process_item 100 all_success) init_state).vectors_to_upsert_buffer] := by
    show (run_deliveries 100 all_success
        (((prepare_batches scenario_records 100).map
          (chunk_to_items embed_const)).flatten)).sink_calls = _
    simp [run_deliveries, drain, hEfalse]
  obtain ⟨g1, g2, g3⟩ := run_deliveries_all_success 100 (by omega)
    (((prepare_batches scenario_records 100).map (chunk_to_items embed_const)).flatten)
  refine ⟨h1, hfl, h3, hbuf50, ?_, ?_, ?_⟩
  · rw [hfinal_calls, List.map_append, h3]
    simp [hbuf50]
  · show (run_deliveries 100 all_success
        (((prepare_batches scenario_records 100).map
          (chunk_to_items embed_const)).flatten)).checkpoint
      = scenario_records.map Record.post_id
    rw [g1, hids]
  · show (run_deliveries 100 all_success
        (((prepare_batches scenario_records 100).map
          (chunk_to_items embed_const)).flatten)).processed_count_in_run = 250
    rw [g2, hlenA]

/-- C6: metadata coercion is NOT total — a list value with more than one
element makes the pd.isna test raise ValueError before the list branch of
the isinstance chain is reached.  Scalars behave as the claim states:
missing values default by declared column dtype, bool/int/float/str pass
through, any other object is stringified, and a single-element list of a
non-missing element is stringified element-wise. -/
theorem c6_coercion_raises_on_multi_element_list :
    coerce_metadata_value PandasDtype.object
        (PyValue.list [PyValue.int 1, PyValue.int 2])
      = Except.error
          "ValueError: The truth value of an array with more than one element is ambiguous"
    ∧ (∀ dt : PandasDtype,
        coerce_metadata_value dt (PyValue.list [PyValue.int 1, PyValue.int 2])
          = Except.error
              "ValueError: The truth value of an array with more than one element is ambiguous")
    ∧ coerce_metadata_value PandasDtype.numeric PyValue.na
        = Except.ok (MetaValue.mInt 0)
    ∧ coerce_metadata_value PandasDtype.boolean PyValue.na
        = Except.ok (MetaValue.mBool false)
    ∧ coerce_metadata_value PandasDtype.object PyValue.na
        = Except.ok (MetaValue.mStr "")
    ∧ (∀ dt b, coerce_metadata_value dt (PyValue.bool b)
        = Except.ok (MetaValue.mBool b))
    ∧ (∀ dt n, coerce_metadata_value dt (PyValue.int n)
        = Except.ok (MetaValue.mInt n))
    ∧ (∀ dt r, coerce_metadata_value dt (PyValue.float r)
        = Except.ok (MetaValue.mFloat r))
    ∧ (∀ dt s, coerce_metadata_value dt (PyValue.str s)
        = Except.ok (MetaValue.mStr s))
    ∧ (∀ dt s, coerce_metadata_value dt (PyValue.other s)
        = Except.ok (MetaValue.mStr s))
    ∧ coerce_metadata_value PandasDtype.object (PyValue.list [PyValue.int 5])
        = Except.ok (MetaValue.mStrList ["5"]) := by
  refine ⟨rfl, fun dt => ?_, rfl, rfl, rfl, fun dt b => ?_, fun dt n => ?_,
    fun dt r => ?_, fun dt s => ?_, fun dt s => ?_, ?_⟩
  · cases dt <;> rfl
  · rfl
  · rfl
  · rfl
  · rfl
  · rfl
  · simp only [coerce_metadata_value, isna_test, isna_scalar]
    rw [pyStrList, pyStrList, pyStr]
    rfl

/-- C7: a row whose text cell is missing is dropped, but a row whose id
cell is missing is NOT dropped — line 107 stringifies the whole id
column before line 108's dropna runs, so the missing id has already
become the string nan and the row enters the pipeline with that id. -/
theorem c7_null_id_row_survives_dropna :
    load_and_clean [⟨PyValue.na, PyValue.str "hello"⟩]
        = [⟨PyValue.str "nan", PyValue.str "hello"⟩]
    ∧ load_and_clean [⟨PyValue.str "1", PyValue.na⟩] = []
    ∧ load_and_clean [⟨PyValue.na, PyValue.na⟩] = [] := by
  refine ⟨?_, ?_, ?_⟩ <;> simp [load_and_clean, pyStr, isna_scalar]

end VectorIngest
